import Mathlib

/-!
# Print-queue handlers of `printq.go`

A shallow embedding of the three HTTP handlers of the braille print-queue
service (`printqAddHandler`, `printqListHandler`, `printqItemHandler`) and of
the library calls they make.  The datastore is an explicit state (a list of
stored entities with their integer ids); a handler is a function from the
state and the request to a response (and, for `/add`, the next state).

What the handlers receive from outside is made explicit:

* the two braille encoders, `drawBrailleStr` and `parseQueryString` live
  outside `printq.go` and are fields of `Deps`;
* `time.Now()` is the argument `now`;
* the result of `datastore.Put` on an incomplete key (the identifier the
  store assigns, or an error) is the argument `putOutcome`;
* `strconv.IntSize` (the width of Go's `int`) is the argument `intSize`.
-/

namespace BraillePrinter

/-! ## Constants and the stored record -/

def EXAMPLE_AUTHKEY : String := "examplekey"

def MAX_QUERY : Nat := 100

/-- The entity `PrintQ` (field `Type` is written `Type_`). `CTime` is an
instant on an integer time line. -/
structure PrintQ where
  Type_ : String
  Key : String
  Origin : String
  ResultText : String
  ResultSVG : List UInt8
  Status : Int
  CTime : Int
deriving DecidableEq

/-! ## Strings -/

/-- Go's `strings.ToUpper` as it acts on ASCII text: the letters `a` to `z`
are mapped to `A` to `Z` and every other character is kept. It is applied
to request methods only, which are ASCII tokens. -/
def strings_ToUpper (s : String) : String :=
  String.mk (s.data.map Char.toUpper)

/-- Whether `sub` occurs in `l` as a contiguous block. -/
def containsChars : List Char → List Char → Bool
  | [], sub => sub.isEmpty
  | c :: cs, sub => sub.isPrefixOf (c :: cs) || containsChars cs sub

/-- Go's `strings.Contains`. -/
def strings_Contains (s substr : String) : Bool :=
  containsChars s.data substr.data

/-! ## HTTP requests and responses -/

/-- Go's `url.Values`, as the list of its (key, value) pairs. -/
abbrev Values := List (String × String)

/-- `Values.Get`: the first value associated with the key, `""` when there is none. -/
def Values.Get (v : Values) (key : String) : String :=
  match v.find? (fun p => p.1 == key) with
  | some p => p.2
  | none => ""

/-- The parts of `*http.Request` the handlers read. `Form` holds the parsed
form values that `FormValue` looks up. -/
structure Request where
  Method : String
  Referer : String
  Form : Values
  RawQuery : String

/-- `r.FormValue(key)`. -/
def Request.FormValue (r : Request) (key : String) : String :=
  Values.Get r.Form key

/-- What a handler wrote to its `http.ResponseWriter`. `contentType` is the
header value when the handler set one. -/
structure Response where
  status : Nat
  contentType : Option String
  body : String
deriving DecidableEq

/-- Go's `http.Error(w, msg, code)`. -/
def http_Error (msg : String) (code : Nat) : Response :=
  ⟨code, some "text/plain; charset=utf-8", msg ++ "\n"⟩

/-! ## Code outside `printq.go` -/

/-- The functions the handlers call that are defined outside `printq.go`:
`brl_ko.Encode`, `brl_en.Encode` (text to braille string and length),
`drawBrailleStr` (as the bytes it writes to the canvas) and
`parseQueryString`. -/
structure Deps where
  brl_ko_Encode : String → String × Int
  brl_en_Encode : String → String × Int
  drawBrailleStr : String → Int → List UInt8
  parseQueryString : Request → Except String Values

/-! ## The datastore -/

/-- The entities of kind `PrintQ`, each with its integer id, in the order
they were put. -/
abbrev Store := List (Int × PrintQ)

/-- `datastore.Put` with an incomplete key: on success the store assigns the
id `id` and holds the entity under it. -/
def datastorePut (s : Store) (putOutcome : Except String Int) (e : PrintQ) :
    Except String Int × Store :=
  match putOutcome with
  | .ok id => (.ok id, s ++ [(id, e)])
  | .error msg => (.error msg, s)

/-- `datastore.Get` by integer id. -/
def datastoreGet (s : Store) (id : Int) : Except String PrintQ :=
  match s.find? (fun p => p.1 == id) with
  | some p => .ok p.2
  | none => .error "datastore: no such entity"

/-! ## `printqAddHandler` -/

/-- `printqAddHandler`: the response and the store after the request. -/
def printqAddHandler (d : Deps) (now : Int) (putOutcome : Except String Int)
    (s : Store) (r : Request) : Response × Store :=
  if strings_ToUpper r.Method ≠ "POST" then
    (http_Error "Method Not Allowed" 405, s)
  else if strings_Contains r.Referer "http://localhost" ||
      strings_Contains r.Referer "http://braille-printer.appspot.com" then
    let authKey := EXAMPLE_AUTHKEY
    let input := r.FormValue "input"
    let lang := r.FormValue "lang"
    let lang := if lang = "" then "ko" else lang
    let label := if strings_Contains input "\n" then "paper" else "label"
    let b : String × Int :=
      if lang = "ko" then d.brl_ko_Encode input
      else if lang = "en" then d.brl_en_Encode input
      else ("", 0)
    -- bytes.NewBuffer(make([]byte, 24288)): the buffer starts with 24288 zero bytes
    let buf : List UInt8 := List.replicate 24288 0
    -- svg.New(buf) writes nothing; drawBrailleStr appends to the buffer;
    -- the deferred canvas.End() runs after the record was built and put
    let buf := buf ++ d.drawBrailleStr b.1 b.2
    let printq : PrintQ :=
      { Type_ := label, Key := authKey, Origin := input, ResultText := b.1,
        ResultSVG := buf, Status := 0, CTime := now }
    match datastorePut s putOutcome printq with
    | (.error msg, s') => (http_Error msg 500, s')
    | (.ok _, s') => (⟨200, none, ""⟩, s')
  else
    (http_Error "Unauthorized" 401, s)

/-! ## `strconv` and `encoding/json` -/

/-- The ASCII digit of `d < 10`. -/
def digitByte (d : Nat) : Char := Char.ofNat (48 + d)

/-- The decimal digits of `n` put in front of `acc` (`fuel` bounds the number of digits). -/
def formatDigits : Nat → Nat → List Char → List Char
  | 0, _, acc => acc
  | fuel + 1, n, acc =>
    if n / 10 = 0 then digitByte (n % 10) :: acc
    else formatDigits fuel (n / 10) (digitByte (n % 10) :: acc)

/-- Go's `strconv.FormatUint(n, 10)`. -/
def strconv_FormatUint (n : Nat) : String :=
  String.mk (formatDigits (n + 1) n [])

/-- Go's `strconv.FormatInt(i, 10)`: the decimal text of `i`. -/
def strconv_FormatInt (i : Int) : String :=
  if i < 0 then String.mk ('-' :: formatDigits (i.natAbs + 1) i.natAbs [])
  else strconv_FormatUint i.toNat

/-- The two errors of `strconv`. -/
inductive NumError where
  | ErrSyntax
  | ErrRange
deriving DecidableEq, Repr

/-- The digit loop of `strconv.ParseUint` in base 10, `n` being the value read
so far: a byte that is not a decimal digit is a syntax error with value 0;
a value that overflows 64 bits or exceeds `maxVal` is a range error with
value `maxVal`, reported as soon as it is met. -/
def parseUintLoop (maxVal : Nat) : List Char → Nat → Nat × Option NumError
  | [], n => (n, none)
  | c :: cs, n =>
    if '0' ≤ c ∧ c ≤ '9' then
      let d := c.toNat - 48
      -- cutoff = maxUint64/10 + 1
      if n ≥ (2 ^ 64 - 1) / 10 + 1 then (maxVal, some NumError.ErrRange)
      else
        let n10 := n * 10
        let n1 := (n10 + d) % 2 ^ 64
        if n1 < n10 ∨ n1 > maxVal then (maxVal, some NumError.ErrRange)
        else parseUintLoop maxVal cs n1
    else (0, some NumError.ErrSyntax)

/-- Go's `strconv.ParseUint(s, 10, bitSize)`. -/
def strconv_ParseUint (s : List Char) (bitSize : Nat) : Nat × Option NumError :=
  if s = [] then (0, some NumError.ErrSyntax)
  else parseUintLoop (2 ^ bitSize - 1) s 0

/-- Conversion of an integer to the signed integer type of `bits` bits
(two's complement wrap-around). -/
def wrapInt (bits : Nat) (x : Int) : Int :=
  (x + 2 ^ (bits - 1)) % 2 ^ bits - 2 ^ (bits - 1)

/-- Go's `strconv.ParseInt(s, 10, bitSize)`: an optional sign, then
`ParseUint`; a syntax error gives 0, a range error the nearest value of
`bitSize` bits. -/
def strconv_ParseInt (s : String) (bitSize : Nat) : Int × Option NumError :=
  if s = "" then (0, some NumError.ErrSyntax)
  else
    -- pick off the leading sign
    let p : Bool × List Char :=
      if s.data.head? = some '+' then (false, s.data.tail)
      else if s.data.head? = some '-' then (true, s.data.tail)
      else (false, s.data)
    -- convert unsigned and check range
    let u := strconv_ParseUint p.2 bitSize
    if u.2 = some NumError.ErrSyntax then (0, some NumError.ErrSyntax)
    else
      let un := u.1
      let cutoff : Nat := 2 ^ (bitSize - 1)
      if p.1 = false ∧ un ≥ cutoff then (((cutoff : Int) - 1), some NumError.ErrRange)
      else if p.1 = true ∧ un > cutoff then (-(cutoff : Int), some NumError.ErrRange)
      else
        let n := wrapInt 64 (un : Int)
        (if p.1 then wrapInt 64 (-n) else n, none)

/-- Go's `strconv.Atoi(s)` where `int` has `intSize` bits:
`ParseInt(s, 10, 0)` converted to `int`. -/
def strconv_Atoi (intSize : Nat) (s : String) : Int × Option NumError :=
  let p := strconv_ParseInt s intSize
  (wrapInt intSize p.1, p.2)

/-- A hexadecimal digit, lower case. -/
def hexDigit (n : Nat) : Char :=
  if n < 10 then Char.ofNat (48 + n) else Char.ofNat (87 + n)

/-- How `encoding/json` writes one character of a string. -/
def json_escapeChar (c : Char) : List Char :=
  if c = '\"' then ['\\', '\"']
  else if c = '\\' then ['\\', '\\']
  else if c = '\n' then ['\\', 'n']
  else if c = '\r' then ['\\', 'r']
  else if c = '\t' then ['\\', 't']
  else if c.toNat < 32 ∨ c = '<' ∨ c = '>' ∨ c = '&' then
    ['\\', 'u', '0', '0', hexDigit (c.toNat / 16), hexDigit (c.toNat % 16)]
  else if c.toNat = 8232 then ['\\', 'u', '2', '0', '2', '8']
  else if c.toNat = 8233 then ['\\', 'u', '2', '0', '2', '9']
  else [c]

/-- A string as `encoding/json` writes it. -/
def json_String (s : String) : String :=
  String.mk ('\"' :: ((s.data.map json_escapeChar).flatten ++ ['\"']))

/-- The result of `json.Marshal` on a `map[string]string`, whose entries are
given in the order of their keys. -/
def json_Marshal_StringMap (m : List (String × String)) : String :=
  "\x7b" ++ String.intercalate ","
    (m.map (fun kv => json_String kv.1 ++ ":" ++ json_String kv.2)) ++ "\x7d"

/-- One element of the list that `printqListHandler` returns. -/
structure QList where
  Qid : Int
  Type_ : String
deriving DecidableEq

/-- The result of `json.Marshal` on a `QList`. -/
def json_Marshal_QListItem (x : QList) : String :=
  "\x7b\"qid\":" ++ strconv_FormatInt x.Qid ++ ",\"type\":" ++ json_String x.Type_ ++ "\x7d"

/-- The result of `json.Marshal` on a non-nil `[]QList`. -/
def json_Marshal_QList (l : List QList) : String :=
  "[" ++ String.intercalate "," (l.map json_Marshal_QListItem) ++ "]"

/-! ## Datastore queries -/

/-- An equality filter of a query. -/
inductive Filter where
  | KeyEq (v : String)
  | TypeEq (v : String)
deriving DecidableEq

/-- Whether an entity passes a filter. -/
def Filter.holds (f : Filter) (e : PrintQ) : Bool :=
  match f with
  | .KeyEq v => e.Key == v
  | .TypeEq v => e.Type_ == v

/-- A query on the kind `PrintQ`: equality filters, optionally ordered by
`CTime` ascending, optionally limited. -/
structure Query where
  filters : List Filter
  orderCTime : Bool
  limit : Option Nat

def datastore_NewQuery : Query := ⟨[], false, none⟩

def Query.Filter (q : Query) (f : Filter) : Query := { q with filters := q.filters ++ [f] }

def Query.OrderCTime (q : Query) : Query := { q with orderCTime := true }

def Query.Limit (q : Query) (n : Nat) : Query := { q with limit := some n }

/-- The order of the results of a query sorted by `CTime`: by creation time,
entities of the same time by their key. -/
def entityLE (a b : Int × PrintQ) : Prop :=
  a.2.CTime < b.2.CTime ∨ (a.2.CTime = b.2.CTime ∧ a.1 ≤ b.1)

instance : DecidableRel entityLE := fun a b => by
  unfold entityLE; exact inferInstance

/-- What an iterator yields at each `Next`, until `datastore.Done`. -/
abbrev Iterator := List (Except String (Int × PrintQ))

/-- `q.Run(c)`: the entities that pass every filter, sorted, cut at the limit. -/
def Query.Run (q : Query) (s : Store) : Iterator :=
  let l := s.filter (fun e => q.filters.all (fun f => f.holds e.2))
  let l := if q.orderCTime then l.insertionSort entityLE else l
  let l := match q.limit with
    | some n => l.take n
    | none => l
  l.map Except.ok

/-! ## `printqListHandler` -/

/-- The loop of `printqListHandler` over the iterator: `qlist` grows by one
element per entity; an error of `Next` other than `Done` aborts. -/
def printqListLoop : Iterator → List QList → Except String (List QList)
  | [], qlist => .ok qlist
  | .error msg :: _, _ => .error msg
  | .ok (qid, x) :: t, qlist => printqListLoop t (qlist ++ [⟨qid, x.Type_⟩])

/-- `printqListHandler`. -/
def printqListHandler (d : Deps) (s : Store) (r : Request) : Response :=
  if strings_ToUpper r.Method ≠ "GET" then
    http_Error "Method Not Allowed" 405
  else
    match d.parseQueryString r with
    | .error msg => http_Error msg 400
    | .ok qs =>
      let label := qs.Get "type"
      let label := if label = "" then "label" else label
      let authKey := qs.Get "key"
      let authKey := if authKey = "" then EXAMPLE_AUTHKEY else authKey
      let q := datastore_NewQuery.Filter (.KeyEq authKey)
      let q := if label ≠ "all" then q.Filter (.TypeEq label) else q
      let q := q.OrderCTime.Limit MAX_QUERY
      match printqListLoop (q.Run s) [] with
      | .error msg => http_Error msg 500
      | .ok qlist =>
        ⟨200, some "application/json; charset=utf-8", json_Marshal_QList qlist⟩

/-! ## `printqItemHandler` -/

/-- The end of `printqItemHandler`, from what `datastore.Get` returned: an
error is answered 500 with its message, an entity with the JSON object of
its `Origin` and `ResultText`. -/
def printqItemRespond (got : Except String PrintQ) : Response :=
  match got with
  | .error msg => http_Error msg 500
  | .ok item =>
    ⟨200, none, json_Marshal_StringMap [("origin", item.Origin), ("result", item.ResultText)]⟩

/-- `printqItemHandler`, `int` having `intSize` bits. The values of `format`
and `key` are read and not used; the error of `strconv.Atoi` is dropped. -/
def printqItemHandler (d : Deps) (intSize : Nat) (s : Store) (r : Request) : Response :=
  if strings_ToUpper r.Method ≠ "GET" then
    http_Error "Method Not Allowed" 405
  else
    match d.parseQueryString r with
    | .error msg => http_Error msg 400
    | .ok qs =>
      let qid := qs.Get "qid"
      if qid = "" then http_Error "Bad Request" 400
      else
        let format := qs.Get "format"
        let _format := if format = "" then "text" else format
        let authKey := qs.Get "key"
        let _authKey := if authKey = "" then EXAMPLE_AUTHKEY else authKey
        let intID := (strconv_Atoi intSize qid).1
        let intID64 := wrapInt 64 intID
        printqItemRespond (datastoreGet s intID64)


/-! ## Reachable stores, the listing as the specification words it, and sample data -/

/-- Stand-ins for the outside functions: encoders that return the text
itself with its length, a renderer that writes nothing, and a query parser
that returns the form values. -/
def mockDeps : Deps :=
  { brl_ko_Encode := fun s => (s, s.length)
    brl_en_Encode := fun s => (s, s.length)
    drawBrailleStr := fun _ _ => []
    parseQueryString := fun r => .ok r.Form }

def helloRequest : Request :=
  ⟨"POST", "http://localhost:8080/", [("input", "hello"), ("lang", "en")], ""⟩

def twoLinesRequest : Request :=
  ⟨"POST", "http://braille-printer.appspot.com/", [("input", "line1\nline2"), ("lang", "ko")], ""⟩

def getAddRequest : Request :=
  ⟨"GET", "http://example.org/", [("input", "hello"), ("lang", "en")], ""⟩

def foreignPostRequest : Request :=
  ⟨"post", "http://example.org/", [("input", "hello"), ("lang", "en")], ""⟩

def fetchOneRequest : Request := ⟨"GET", "", [("qid", "1")], ""⟩

def fetchOneOtherKeyRequest : Request :=
  ⟨"get", "", [("key", "someone-else"), ("qid", "1"), ("format", "svg")], ""⟩

def fetchWordRequest : Request := ⟨"GET", "", [("qid", "abc")], ""⟩

def fetchOverflowRequest : Request := ⟨"GET", "", [("qid", "9223372036854775808")], ""⟩

/-- The store after "hello" was submitted and given the id 1. -/
def helloStore : Store := (printqAddHandler mockDeps 7 (.ok 1) [] helloRequest).2

/-- The store after "hello" was submitted and given the largest 64-bit id. -/
def maxIdStore : Store :=
  (printqAddHandler mockDeps 7 (.ok 9223372036854775807) [] helloRequest).2

/-- The stores that submissions through `printqAddHandler` lead to, from the
empty store. -/
inductive Reachable (d : Deps) : Store → Prop where
  | empty : Reachable d []
  | add {s : Store} (now : Int) (po : Except String Int) (r : Request) :
      Reachable d s → Reachable d (printqAddHandler d now po s r).2

/-- The records a listing for key `k` and type `t` is to return, in the words
of the specification: those of owner key `k` whose category is `t`, and for
`t = "all"` those of owner key `k` whose category is "label" or "paper". -/
def listingSpec (k t : String) (e : Int × PrintQ) : Bool :=
  e.2.Key == k &&
    (if t = "all" then (e.2.Type_ == "label" || e.2.Type_ == "paper") else e.2.Type_ == t)

/-- The projection `(qid, type)` of a stored record. -/
def QList.ofEntity (e : Int × PrintQ) : QList := ⟨e.1, e.2.Type_⟩

/-- The store after `n` submissions of "hello", the `i`-th at time `i` with id `i`. -/
def submitHello : Nat → Store
  | 0 => []
  | n + 1 => (printqAddHandler mockDeps (n + 1) (.ok (n + 1)) (submitHello n) helloRequest).2

def listLabelRequest : Request := ⟨"GET", "", [("type", "label")], ""⟩

instance : IsTotal (Int × PrintQ) entityLE := ⟨fun a b => by unfold entityLE; omega⟩

instance : IsTrans (Int × PrintQ) entityLE :=
  ⟨fun a b c h1 h2 => by unfold entityLE at *; omega⟩

/-! ## Facts about the string functions -/

theorem containsChars_newline (l : List Char) :
    containsChars l ['\n'] = true ↔ '\n' ∈ l := by
  induction l with
  | nil => simp [containsChars]
  | cons c cs ih =>
    simp only [containsChars, Bool.or_eq_true, ih, List.mem_cons]
    constructor
    · rintro (h | h)
      · left
        simp [List.isPrefixOf] at h
        exact h
      · right; exact h
    · rintro (h | h)
      · left
        simp [List.isPrefixOf, h.symm]
      · right; exact h

theorem strings_Contains_newline (s : String) :
    strings_Contains s "\n" = true ↔ '\n' ∈ s.data := by
  unfold strings_Contains
  exact containsChars_newline s.data

/-! ## Facts about `strconv` -/

theorem digitByte_spec (d : Nat) (h : d < 10) :
    '0' ≤ digitByte d ∧ digitByte d ≤ '9' ∧ (digitByte d).toNat - 48 = d ∧
      digitByte d ≠ '+' ∧ digitByte d ≠ '-' := by
  interval_cases d <;> decide

theorem parseUintLoop_digit (maxVal m d : Nat) (cs : List Char) (hd : d < 10)
    (hm : m * 10 + d ≤ maxVal) (hmax : maxVal < 2 ^ 64) :
    parseUintLoop maxVal (digitByte d :: cs) m = parseUintLoop maxVal cs (m * 10 + d) := by
  obtain ⟨h0, h9, hv, -, -⟩ := digitByte_spec d hd
  have hlt : m * 10 + d < 2 ^ 64 := lt_of_le_of_lt hm hmax
  have hmod : (m * 10 + d) % 2 ^ 64 = m * 10 + d := Nat.mod_eq_of_lt hlt
  have hcut : ¬ m ≥ (2 ^ 64 - 1) / 10 + 1 := by
    norm_num at hlt ⊢
    omega
  simp only [parseUintLoop, h0, h9, and_self, if_true, hv, hcut, if_false, hmod]
  rw [if_neg]
  omega

theorem parseUintLoop_formatDigits (maxVal : Nat) (hmax : maxVal < 2 ^ 64) :
    ∀ (fuel n : Nat) (acc : List Char), n < fuel → n ≤ maxVal →
      parseUintLoop maxVal (formatDigits fuel n acc) 0 = parseUintLoop maxVal acc n := by
  intro fuel
  induction fuel with
  | zero => intro n acc h; omega
  | succ fuel ih =>
    intro n acc hf hn
    unfold formatDigits
    by_cases h0 : n / 10 = 0
    · rw [if_pos h0]
      have hlt : n < 10 := by omega
      rw [parseUintLoop_digit maxVal 0 (n % 10) acc (by omega) (by omega) hmax]
      congr 1
      omega
    · rw [if_neg h0]
      rw [ih (n / 10) _ (by omega) (by omega)]
      rw [parseUintLoop_digit maxVal (n / 10) (n % 10) acc (by omega) (by omega) hmax]
      congr 1
      omega

theorem formatDigits_head : ∀ (fuel n d : Nat) (t : List Char), d < 10 →
    ∃ d' t', d' < 10 ∧ formatDigits fuel n (digitByte d :: t) = digitByte d' :: t' := by
  intro fuel
  induction fuel with
  | zero => intro n d t hd; exact ⟨d, t, hd, rfl⟩
  | succ fuel ih =>
    intro n d t hd
    unfold formatDigits
    by_cases h0 : n / 10 = 0
    · rw [if_pos h0]
      exact ⟨n % 10, _, Nat.mod_lt _ (by decide), rfl⟩
    · rw [if_neg h0]
      exact ih (n / 10) (n % 10) _ (Nat.mod_lt _ (by decide))

theorem formatDigits_succ_head (fuel n : Nat) (acc : List Char) :
    ∃ d' t', d' < 10 ∧ formatDigits (fuel + 1) n acc = digitByte d' :: t' := by
  unfold formatDigits
  by_cases h0 : n / 10 = 0
  · rw [if_pos h0]
    exact ⟨n % 10, _, Nat.mod_lt _ (by decide), rfl⟩
  · rw [if_neg h0]
    exact formatDigits_head fuel (n / 10) (n % 10) _ (Nat.mod_lt _ (by decide))

theorem String_mk_cons_ne_empty (c : Char) (t : List Char) : String.mk (c :: t) ≠ "" := by
  intro h
  have := congrArg String.data h
  simp at this

theorem wrapInt_of_fits (bits : Nat) (hb : bits = 32 ∨ bits = 64) (x : Int)
    (hlo : -(2 : Int) ^ (bits - 1) ≤ x) (hhi : x < (2 : Int) ^ (bits - 1)) :
    wrapInt bits x = x := by
  unfold wrapInt
  rcases hb with rfl | rfl
  · norm_num at hlo hhi ⊢
    omega
  · norm_num at hlo hhi ⊢
    omega

theorem strconv_ParseUint_formatDigits (bits n : Nat) (hb : bits = 32 ∨ bits = 64)
    (hn : n ≤ 2 ^ bits - 1) :
    strconv_ParseUint (formatDigits (n + 1) n []) bits = (n, none) := by
  obtain ⟨d', t', -, hfd⟩ := formatDigits_succ_head n n []
  unfold strconv_ParseUint
  rw [if_neg (by rw [hfd]; exact List.cons_ne_nil _ _)]
  have hmax : 2 ^ bits - 1 < 2 ^ 64 := by
    rcases hb with rfl | rfl <;> norm_num
  rw [parseUintLoop_formatDigits _ hmax (n + 1) n [] (by omega) hn]
  rfl

theorem strconv_ParseInt_FormatInt (bits : Nat) (hb : bits = 32 ∨ bits = 64) (x : Int)
    (hlo : -(2 : Int) ^ (bits - 1) ≤ x) (hhi : x < (2 : Int) ^ (bits - 1)) :
    strconv_ParseInt (strconv_FormatInt x) bits = (x, none) := by
  unfold strconv_FormatInt
  by_cases hneg : x < 0
  · rw [if_pos hneg]
    obtain ⟨d', t', hd', hfd⟩ := formatDigits_succ_head x.natAbs x.natAbs []
    obtain ⟨-, -, -, hplus, hminus⟩ := digitByte_spec d' hd'
    have hu := strconv_ParseUint_formatDigits bits x.natAbs hb (by
      rcases hb with rfl | rfl
      · norm_num at hlo hhi ⊢
        omega
      · norm_num at hlo hhi ⊢
        omega)
    unfold strconv_ParseInt
    rw [if_neg (String_mk_cons_ne_empty _ _)]
    simp only [List.head?_cons, List.tail_cons, Option.some.injEq,
      show ¬ ('-' = '+') by decide, if_false, if_true, hu, reduceCtorEq]
    rcases hb with rfl | rfl
    · unfold wrapInt
      norm_num at hlo hhi ⊢
      rw [if_neg (by omega)]
      simp only [Prod.mk.injEq, and_true]
      have habs := abs_of_neg hneg
      omega
    · unfold wrapInt
      norm_num at hlo hhi ⊢
      rw [if_neg (by omega)]
      simp only [Prod.mk.injEq, and_true]
      have habs := abs_of_neg hneg
      omega
  · rw [if_neg hneg]
    unfold strconv_FormatUint
    obtain ⟨d', t', hd', hfd⟩ := formatDigits_succ_head x.toNat x.toNat []
    obtain ⟨-, -, -, hplus, hminus⟩ := digitByte_spec d' hd'
    have hu := strconv_ParseUint_formatDigits bits x.toNat hb (by
      rcases hb with rfl | rfl
      · norm_num at hlo hhi ⊢
        omega
      · norm_num at hlo hhi ⊢
        omega)
    unfold strconv_ParseInt
    rw [if_neg (by rw [hfd]; exact String_mk_cons_ne_empty _ _)]
    have hh : (formatDigits (x.toNat + 1) x.toNat []).head? = some (digitByte d') := by
      rw [hfd]; rfl
    simp only [hh, Option.some.injEq, hplus, hminus, if_false, hu, reduceCtorEq]
    rcases hb with rfl | rfl
    · unfold wrapInt
      norm_num at hlo hhi ⊢
      rw [if_neg (by omega)]
      simp only [Prod.mk.injEq, and_true]
      omega
    · unfold wrapInt
      norm_num at hlo hhi ⊢
      rw [if_neg (by omega)]
      simp only [Prod.mk.injEq, and_true]
      omega

theorem strconv_Atoi_FormatInt (intSize : Nat) (hb : intSize = 32 ∨ intSize = 64) (x : Int)
    (hlo : -(2 : Int) ^ (intSize - 1) ≤ x) (hhi : x < (2 : Int) ^ (intSize - 1)) :
    strconv_Atoi intSize (strconv_FormatInt x) = (x, none) := by
  unfold strconv_Atoi
  rw [strconv_ParseInt_FormatInt intSize hb x hlo hhi]
  simp only [wrapInt_of_fits intSize hb x hlo hhi]

theorem wrapInt_zero (bits : Nat) (hb : bits = 32 ∨ bits = 64) : wrapInt bits 0 = 0 := by
  rcases hb with rfl | rfl <;> decide

theorem strconv_ParseInt_ErrSyntax_zero (s : String) (bits : Nat)
    (h : (strconv_ParseInt s bits).2 = some NumError.ErrSyntax) :
    (strconv_ParseInt s bits).1 = 0 := by
  unfold strconv_ParseInt at h ⊢
  simp only at h ⊢
  split_ifs at h ⊢ <;> first | rfl | (simp at h)

theorem strconv_Atoi_ErrSyntax_zero (intSize : Nat) (hb : intSize = 32 ∨ intSize = 64) (s : String)
    (h : (strconv_Atoi intSize s).2 = some NumError.ErrSyntax) :
    (strconv_Atoi intSize s).1 = 0 := by
  unfold strconv_Atoi at h ⊢
  simp only at h ⊢
  rw [strconv_ParseInt_ErrSyntax_zero s intSize h]
  exact wrapInt_zero intSize hb

theorem strconv_FormatInt_ne_empty (x : Int) : strconv_FormatInt x ≠ "" := by
  unfold strconv_FormatInt
  by_cases hneg : x < 0
  · rw [if_pos hneg]
    exact String_mk_cons_ne_empty _ _
  · rw [if_neg hneg]
    unfold strconv_FormatUint
    obtain ⟨d', t', -, hfd⟩ := formatDigits_succ_head x.toNat x.toNat []
    rw [hfd]
    exact String_mk_cons_ne_empty _ _

theorem strconv_Atoi_range (intSize : Nat) (hb : intSize = 32 ∨ intSize = 64) (s : String)
    (h : (strconv_Atoi intSize s).2 = some NumError.ErrRange) :
    (strconv_Atoi intSize s).1 = 2 ^ (intSize - 1) - 1 ∨
      (strconv_Atoi intSize s).1 = -(2 ^ (intSize - 1)) := by
  unfold strconv_Atoi strconv_ParseInt at h ⊢
  simp only at h ⊢
  rcases hb with rfl | rfl
  · split_ifs at h ⊢ <;> first | (simp at h; done) | (left; decide) | (right; decide)
  · split_ifs at h ⊢ <;> first | (simp at h; done) | (left; decide) | (right; decide)

theorem printqItemRespond_status (got : Except String PrintQ) :
    (printqItemRespond got).status = 500 ∨ (printqItemRespond got).status = 200 := by
  cases got with
  | error msg => left; rfl
  | ok item => right; rfl

/-! ## Facts about the datastore and `printqItemHandler` -/

theorem find_append_fresh (s : Store) (id : Int) (rec : PrintQ)
    (hfresh : ∀ e ∈ s, e.1 ≠ id) :
    (s ++ [(id, rec)]).find? (fun p => p.1 == id) = some (id, rec) := by
  induction s with
  | nil => simp
  | cons e t ih =>
    have he : (e.1 == id) = false := by
      simpa using hfresh e (List.mem_cons_self _ _)
    have ht : ∀ e ∈ t, e.1 ≠ id := fun x hx => hfresh x (List.mem_cons_of_mem _ hx)
    rw [List.cons_append, List.find?_cons, he]
    exact ih ht

theorem datastoreGet_append_fresh (s : Store) (id : Int) (rec : PrintQ)
    (hfresh : ∀ e ∈ s, e.1 ≠ id) : datastoreGet (s ++ [(id, rec)]) id = .ok rec := by
  unfold datastoreGet
  rw [find_append_fresh s id rec hfresh]

theorem printqItemHandler_eq (d : Deps) (intSize : Nat) (s : Store) (r : Request) (qs : Values)
    (hm : strings_ToUpper r.Method = "GET") (hq : d.parseQueryString r = .ok qs)
    (hne : qs.Get "qid" ≠ "") :
    printqItemHandler d intSize s r =
      printqItemRespond (datastoreGet s (wrapInt 64 (strconv_Atoi intSize (qs.Get "qid")).1)) := by
  unfold printqItemHandler
  simp only [hm, ne_eq, not_true_eq_false, if_false, hq, hne]

theorem find_filter_key (qs : Values) (key : String) (P : String × String → Bool)
    (hP : ∀ p : String × String, p.1 = key → P p = true) :
    (qs.filter P).find? (fun p => p.1 == key) = qs.find? (fun p => p.1 == key) := by
  induction qs with
  | nil => rfl
  | cons p t ih =>
    by_cases hk : p.1 = key
    · have hb : (p.1 == key) = true := by simpa using hk
      rw [List.filter_cons, if_pos (hP p hk), List.find?_cons, List.find?_cons, hb]
    · have hb : (p.1 == key) = false := by simpa using hk
      by_cases hp : P p = true
      · rw [List.filter_cons, if_pos hp, List.find?_cons, List.find?_cons, hb]
        exact ih
      · rw [List.filter_cons, if_neg hp, List.find?_cons, hb]
        exact ih

theorem Values_Get_filter (qs : Values) (key : String) (P : String × String → Bool)
    (hP : ∀ p : String × String, p.1 = key → P p = true) :
    Values.Get (qs.filter P) key = Values.Get qs key := by
  unfold Values.Get
  rw [find_filter_key qs key P hP]

/-! ## Facts about `printqAddHandler` -/

/-- The record `printqAddHandler` builds for a request. -/
theorem printqAddHandler_accept (d : Deps) (now : Int) (id : Int) (s : Store) (r : Request)
    (hm : strings_ToUpper r.Method = "POST")
    (hr : (strings_Contains r.Referer "http://localhost" ||
      strings_Contains r.Referer "http://braille-printer.appspot.com") = true) :
    ∃ rec : PrintQ, printqAddHandler d now (.ok id) s r = (⟨200, none, ""⟩, s ++ [(id, rec)]) ∧
      rec.Type_ = (if strings_Contains (r.FormValue "input") "\n" then "paper" else "label") ∧
      rec.Key = EXAMPLE_AUTHKEY ∧
      rec.Origin = r.FormValue "input" ∧
      (r.FormValue "lang" = "ko" → rec.ResultText = (d.brl_ko_Encode (r.FormValue "input")).1 ∧
        rec.ResultSVG = List.replicate 24288 0 ++
          d.drawBrailleStr (d.brl_ko_Encode (r.FormValue "input")).1
            (d.brl_ko_Encode (r.FormValue "input")).2) ∧
      (r.FormValue "lang" = "en" → rec.ResultText = (d.brl_en_Encode (r.FormValue "input")).1 ∧
        rec.ResultSVG = List.replicate 24288 0 ++
          d.drawBrailleStr (d.brl_en_Encode (r.FormValue "input")).1
            (d.brl_en_Encode (r.FormValue "input")).2) ∧
      rec.CTime = now := by
  refine ⟨
    { Type_ := if strings_Contains (r.FormValue "input") "\n" then "paper" else "label"
      Key := EXAMPLE_AUTHKEY
      Origin := r.FormValue "input"
      ResultText :=
        (if (if r.FormValue "lang" = "" then "ko" else r.FormValue "lang") = "ko" then
          d.brl_ko_Encode (r.FormValue "input")
        else if (if r.FormValue "lang" = "" then "ko" else r.FormValue "lang") = "en" then
          d.brl_en_Encode (r.FormValue "input")
        else ("", 0)).1
      ResultSVG := List.replicate 24288 0 ++ d.drawBrailleStr
        (if (if r.FormValue "lang" = "" then "ko" else r.FormValue "lang") = "ko" then
          d.brl_ko_Encode (r.FormValue "input")
        else if (if r.FormValue "lang" = "" then "ko" else r.FormValue "lang") = "en" then
          d.brl_en_Encode (r.FormValue "input")
        else ("", 0)).1
        (if (if r.FormValue "lang" = "" then "ko" else r.FormValue "lang") = "ko" then
          d.brl_ko_Encode (r.FormValue "input")
        else if (if r.FormValue "lang" = "" then "ko" else r.FormValue "lang") = "en" then
          d.brl_en_Encode (r.FormValue "input")
        else ("", 0)).2
      Status := 0
      CTime := now }, ?_, ?_⟩
  · simp only [printqAddHandler, hm, ne_eq, not_true_eq_false, if_false, hr, if_true,
      datastorePut]
  · refine ⟨rfl, rfl, rfl, ?_, ?_, rfl⟩
    · intro hl
      simp only [hl, show ¬ ("ko" : String) = "" by decide, if_false, if_true, and_self]
    · intro hl
      simp only [hl, show ¬ ("en" : String) = "" by decide,
        show ¬ ("en" : String) = "ko" by decide, if_false, if_true, and_self]

/-- A request that is answered with status 200 passed both checks and its
record was put. -/
theorem printqAddHandler_status_ok (d : Deps) (now : Int) (po : Except String Int)
    (s : Store) (r : Request) (h : (printqAddHandler d now po s r).1.status = 200) :
    strings_ToUpper r.Method = "POST" ∧
      (strings_Contains r.Referer "http://localhost" ||
        strings_Contains r.Referer "http://braille-printer.appspot.com") = true ∧
      ∃ id, po = .ok id := by
  unfold printqAddHandler at h
  split_ifs at h with h1 h2
  · simp [http_Error] at h
  · refine ⟨not_not.mp h1, h2, ?_⟩
    cases po with
    | ok id => exact ⟨id, rfl⟩
    | error msg => simp [datastorePut, http_Error] at h
  · simp [http_Error] at h

/-! ## Properties of `printqAddHandler` -/

/-- C2: for every submission that `printqAddHandler` accepts and persists
(it answers 200, the store having assigned an id), the stored record's
category `Type` is "paper" if the submitted input contains a newline
character and "label" otherwise. -/
theorem C2_category_from_line_break (d : Deps) (now : Int) (po : Except String Int)
    (s : Store) (r : Request) (h : (printqAddHandler d now po s r).1.status = 200) :
    ∃ id rec, po = .ok id ∧ (printqAddHandler d now po s r).2 = s ++ [(id, rec)] ∧
      rec.Type_ = (if '\n' ∈ (r.FormValue "input").data then "paper" else "label") := by
  obtain ⟨hm, hr, id, rfl⟩ := printqAddHandler_status_ok d now po s r h
  obtain ⟨rec, heq, hty, -⟩ := printqAddHandler_accept d now id s r hm hr
  refine ⟨id, rec, rfl, by rw [heq], ?_⟩
  rw [hty]
  by_cases hc : '\n' ∈ (r.FormValue "input").data
  · rw [if_pos hc, if_pos ((strings_Contains_newline _).mpr hc)]
  · rw [if_neg hc, if_neg (fun hh => hc ((strings_Contains_newline _).mp hh))]

theorem C2_category_from_line_break_witness :
    (printqAddHandler mockDeps 7 (.ok 1) [] twoLinesRequest).1.status = 200 ∧
    ∃ id rec, (Except.ok 1 : Except String Int) = .ok id ∧
      (printqAddHandler mockDeps 7 (.ok 1) [] twoLinesRequest).2 = [] ++ [(id, rec)] ∧
      rec.Type_ = (if '\n' ∈ (twoLinesRequest.FormValue "input").data then "paper" else "label") :=
  ⟨by decide, C2_category_from_line_break mockDeps 7 (.ok 1) [] twoLinesRequest (by decide)⟩

/-- C3: for every accepted submission `(input, lang)` with `lang` equal to
"ko" or "en", the `ResultText` of the record that `printqAddHandler` stores is
the string the encoder of that language returns for that input. -/
theorem C3_stored_text_is_encoder_output (d : Deps) (now : Int) (po : Except String Int)
    (s : Store) (r : Request) (h : (printqAddHandler d now po s r).1.status = 200)
    (hl : r.FormValue "lang" = "ko" ∨ r.FormValue "lang" = "en") :
    ∃ id rec, po = .ok id ∧ (printqAddHandler d now po s r).2 = s ++ [(id, rec)] ∧
      (r.FormValue "lang" = "ko" →
        rec.ResultText = (d.brl_ko_Encode (r.FormValue "input")).1) ∧
      (r.FormValue "lang" = "en" →
        rec.ResultText = (d.brl_en_Encode (r.FormValue "input")).1) ∧
      (rec.ResultText = (d.brl_ko_Encode (r.FormValue "input")).1 ∨
        rec.ResultText = (d.brl_en_Encode (r.FormValue "input")).1) := by
  obtain ⟨hm, hr, id, rfl⟩ := printqAddHandler_status_ok d now po s r h
  obtain ⟨rec, heq, -, -, -, hko, hen, -⟩ := printqAddHandler_accept d now id s r hm hr
  refine ⟨id, rec, rfl, by rw [heq], fun hk => (hko hk).1, fun he => (hen he).1, ?_⟩
  rcases hl with hk | he
  · exact Or.inl (hko hk).1
  · exact Or.inr (hen he).1

theorem C3_stored_text_is_encoder_output_witness :
    ((printqAddHandler mockDeps 7 (.ok 1) [] helloRequest).1.status = 200 ∧
      (helloRequest.FormValue "lang" = "ko" ∨ helloRequest.FormValue "lang" = "en")) ∧
    ∃ id rec, (Except.ok 1 : Except String Int) = .ok id ∧
      (printqAddHandler mockDeps 7 (.ok 1) [] helloRequest).2 = [] ++ [(id, rec)] ∧
      (helloRequest.FormValue "lang" = "ko" →
        rec.ResultText = (mockDeps.brl_ko_Encode (helloRequest.FormValue "input")).1) ∧
      (helloRequest.FormValue "lang" = "en" →
        rec.ResultText = (mockDeps.brl_en_Encode (helloRequest.FormValue "input")).1) ∧
      (rec.ResultText = (mockDeps.brl_ko_Encode (helloRequest.FormValue "input")).1 ∨
        rec.ResultText = (mockDeps.brl_en_Encode (helloRequest.FormValue "input")).1) :=
  ⟨⟨by decide, by decide⟩,
    C3_stored_text_is_encoder_output mockDeps 7 (.ok 1) [] helloRequest (by decide) (by decide)⟩

/-- C4, the claim as stated fails: a GET request whose Referer contains
neither allow-listed substring is answered 405, not 401. -/
theorem C4_counterexample_get_gets_405 :
    strings_Contains getAddRequest.Referer "http://localhost" = false ∧
    strings_Contains getAddRequest.Referer "http://braille-printer.appspot.com" = false ∧
    (printqAddHandler mockDeps 7 (.ok 1) [] getAddRequest).1.status = 405 ∧
    (printqAddHandler mockDeps 7 (.ok 1) [] getAddRequest).1.status ≠ 401 := by
  decide

/-- C4, amended: for every request to `printqAddHandler` whose method is POST
(ignoring letter case) and whose Referer contains neither
"http://localhost" nor "http://braille-printer.appspot.com", the handler
responds "Unauthorized" with status 401 and leaves the store unchanged. -/
theorem C4_unauthorized_post (d : Deps) (now : Int) (po : Except String Int)
    (s : Store) (r : Request)
    (hm : strings_ToUpper r.Method = "POST")
    (h1 : strings_Contains r.Referer "http://localhost" = false)
    (h2 : strings_Contains r.Referer "http://braille-printer.appspot.com" = false) :
    (printqAddHandler d now po s r).1.status = 401 ∧
      (printqAddHandler d now po s r).1 = http_Error "Unauthorized" 401 ∧
      (printqAddHandler d now po s r).2 = s := by
  simp [printqAddHandler, hm, h1, h2, http_Error]

theorem C4_unauthorized_post_witness :
    (strings_ToUpper foreignPostRequest.Method = "POST" ∧
      strings_Contains foreignPostRequest.Referer "http://localhost" = false ∧
      strings_Contains foreignPostRequest.Referer "http://braille-printer.appspot.com" = false) ∧
    ((printqAddHandler mockDeps 7 (.ok 1) [] foreignPostRequest).1.status = 401 ∧
      (printqAddHandler mockDeps 7 (.ok 1) [] foreignPostRequest).1 =
        http_Error "Unauthorized" 401 ∧
      (printqAddHandler mockDeps 7 (.ok 1) [] foreignPostRequest).2 = []) :=
  ⟨⟨by decide, by decide, by decide⟩,
    C4_unauthorized_post mockDeps 7 (.ok 1) [] foreignPostRequest
      (by decide) (by decide) (by decide)⟩

/-- C5: for every request to `printqAddHandler` whose method, compared
ignoring letter case, is not POST, the handler responds with status 405 and
the store is left unchanged, whatever the store would have answered. -/
theorem C5_method_not_allowed (d : Deps) (now : Int) (po : Except String Int)
    (s : Store) (r : Request) (hm : strings_ToUpper r.Method ≠ "POST") :
    (printqAddHandler d now po s r).1.status = 405 ∧
      (printqAddHandler d now po s r).1 = http_Error "Method Not Allowed" 405 ∧
      (printqAddHandler d now po s r).2 = s := by
  simp [printqAddHandler, hm, http_Error]

theorem C5_method_not_allowed_witness :
    strings_ToUpper getAddRequest.Method ≠ "POST" ∧
    ((printqAddHandler mockDeps 7 (.ok 1) [] getAddRequest).1.status = 405 ∧
      (printqAddHandler mockDeps 7 (.ok 1) [] getAddRequest).1 =
        http_Error "Method Not Allowed" 405 ∧
      (printqAddHandler mockDeps 7 (.ok 1) [] getAddRequest).2 = []) :=
  ⟨by decide, C5_method_not_allowed mockDeps 7 (.ok 1) [] getAddRequest (by decide)⟩

/-- C9, the code at the submission of "hello" in "en" from localhost: whatever
the encoder and the renderer are, the stored `ResultSVG` is 24288 zero bytes
followed by the bytes `drawBrailleStr` wrote, so it is not the rendered
image alone. -/
theorem C9_stored_image_starts_with_zero_bytes : ∀ d : Deps,
    ∃ rec : PrintQ, (printqAddHandler d 7 (.ok 1) [] helloRequest).2 = [(1, rec)] ∧
      rec.ResultSVG = List.replicate 24288 0 ++
        d.drawBrailleStr (d.brl_en_Encode "hello").1 (d.brl_en_Encode "hello").2 ∧
      rec.ResultSVG.length =
        24288 + (d.drawBrailleStr (d.brl_en_Encode "hello").1 (d.brl_en_Encode "hello").2).length ∧
      rec.ResultSVG ≠
        d.drawBrailleStr (d.brl_en_Encode "hello").1 (d.brl_en_Encode "hello").2 := by
  intro d
  obtain ⟨rec, heq, -, -, -, -, hen, -⟩ :=
    printqAddHandler_accept d 7 1 [] helloRequest (by decide) (by decide)
  have hi : helloRequest.FormValue "input" = "hello" := by decide
  have hsvg := (hen (by decide)).2
  rw [hi] at hsvg
  have hlen : rec.ResultSVG.length = 24288 +
      (d.drawBrailleStr (d.brl_en_Encode "hello").1 (d.brl_en_Encode "hello").2).length := by
    rw [hsvg, List.length_append, List.length_replicate]
  refine ⟨rec, by rw [heq]; rfl, hsvg, hlen, ?_⟩
  intro hcontra
  rw [hcontra] at hlen
  omega

/-! ## Properties of `printqItemHandler` -/

/-- C1: add-then-fetch round trip. For every input text and every prior
store, after `printqAddHandler` accepts a submission of that input with lang
"en" (status 200) and the store assigns it the identifier `id` (an id not in
use, in the range of `int`), a GET to `printqItemHandler` whose `qid` is the
decimal text of `id` succeeds with status 200 and the JSON object whose
"origin" is the submitted input and whose "result" is the encoded text. -/
theorem C1_add_then_fetch (d : Deps) (intSize : Nat) (now : Int) (s : Store) (r : Request)
    (id : Int) (r' : Request) (qs : Values)
    (hb : intSize = 32 ∨ intSize = 64)
    (hst : (printqAddHandler d now (.ok id) s r).1.status = 200)
    (hlang : r.FormValue "lang" = "en")
    (hfresh : ∀ e ∈ s, e.1 ≠ id)
    (hlo : -(2 : Int) ^ (intSize - 1) ≤ id) (hhi : id < (2 : Int) ^ (intSize - 1))
    (hm : strings_ToUpper r'.Method = "GET")
    (hq : d.parseQueryString r' = .ok qs)
    (hqid : qs.Get "qid" = strconv_FormatInt id) :
    printqItemHandler d intSize (printqAddHandler d now (.ok id) s r).2 r' =
      ⟨200, none, json_Marshal_StringMap
        [("origin", r.FormValue "input"),
         ("result", (d.brl_en_Encode (r.FormValue "input")).1)]⟩ := by
  obtain ⟨hpost, href, -⟩ := printqAddHandler_status_ok d now _ s r hst
  obtain ⟨rec, heq, -, -, horigin, -, hen, -⟩ := printqAddHandler_accept d now id s r hpost href
  have hne : qs.Get "qid" ≠ "" := by
    rw [hqid]; exact strconv_FormatInt_ne_empty id
  rw [printqItemHandler_eq d intSize _ r' qs hm hq hne, hqid,
    strconv_Atoi_FormatInt intSize hb id hlo hhi, heq]
  have h64 : wrapInt 64 id = id := by
    apply wrapInt_of_fits 64 (Or.inr rfl)
    · rcases hb with rfl | rfl
      · norm_num at hlo ⊢; omega
      · exact hlo
    · rcases hb with rfl | rfl
      · norm_num at hhi ⊢; omega
      · exact hhi
  simp only [h64, datastoreGet_append_fresh s id rec hfresh, printqItemRespond, horigin,
    (hen hlang).1]

theorem C1_add_then_fetch_witness :
    (((64 : Nat) = 32 ∨ (64 : Nat) = 64) ∧
      (printqAddHandler mockDeps 7 (.ok 1) [] helloRequest).1.status = 200 ∧
      helloRequest.FormValue "lang" = "en" ∧
      (∀ e ∈ ([] : Store), e.1 ≠ 1) ∧
      -(2 : Int) ^ (64 - 1) ≤ 1 ∧ (1 : Int) < (2 : Int) ^ (64 - 1) ∧
      strings_ToUpper fetchOneRequest.Method = "GET" ∧
      mockDeps.parseQueryString fetchOneRequest = .ok [("qid", "1")] ∧
      Values.Get [("qid", "1")] "qid" = strconv_FormatInt 1) ∧
    printqItemHandler mockDeps 64 (printqAddHandler mockDeps 7 (.ok 1) [] helloRequest).2
        fetchOneRequest =
      ⟨200, none, json_Marshal_StringMap
        [("origin", helloRequest.FormValue "input"),
         ("result", (mockDeps.brl_en_Encode (helloRequest.FormValue "input")).1)]⟩ :=
  ⟨⟨by decide, by decide, by decide, by simp, by decide, by decide, by decide, rfl, by decide⟩,
    C1_add_then_fetch mockDeps 64 7 [] helloRequest 1 fetchOneRequest [("qid", "1")]
      (by decide) (by decide) (by decide) (by simp) (by decide) (by decide) (by decide) rfl
      (by decide)⟩

/-- C8, the claim as stated fails: the qid "9223372036854775808" does not
parse as an `int` of 64 bits (`strconv.Atoi` reports a range error), and the
record fetched is the one with identifier 9223372036854775807, not the one
with identifier 0 (there is none in this store). -/
theorem C8_counterexample_range_error :
    Values.Get fetchOverflowRequest.Form "qid" ≠ "" ∧
    strconv_Atoi 64 (Values.Get fetchOverflowRequest.Form "qid") =
      (9223372036854775807, some NumError.ErrRange) ∧
    printqItemRespond (datastoreGet maxIdStore 0) =
      http_Error "datastore: no such entity" 500 ∧
    (printqItemHandler mockDeps 64 maxIdStore fetchOverflowRequest).status = 200 ∧
    (printqItemHandler mockDeps 64 maxIdStore fetchOverflowRequest).body =
      "\x7b\"origin\":\"hello\",\"result\":\"hello\"\x7d" ∧
    printqItemHandler mockDeps 64 maxIdStore fetchOverflowRequest ≠
      printqItemRespond (datastoreGet maxIdStore 0) := by
  decide

/-- C8, amended: for every non-empty qid the handler does not answer 400; when
`strconv.Atoi` reports a syntax error for the qid, the identifier is zero and
the answer is that of fetching the record with identifier 0; when it reports
a range error, the identifier is the largest or the smallest `int`. -/
theorem C8_unparsable_qid (d : Deps) (intSize : Nat) (s : Store) (r : Request) (qs : Values)
    (hb : intSize = 32 ∨ intSize = 64)
    (hm : strings_ToUpper r.Method = "GET")
    (hq : d.parseQueryString r = .ok qs)
    (hne : qs.Get "qid" ≠ "") :
    (printqItemHandler d intSize s r).status ≠ 400 ∧
    ((strconv_Atoi intSize (qs.Get "qid")).2 = some NumError.ErrSyntax →
      printqItemHandler d intSize s r = printqItemRespond (datastoreGet s 0)) ∧
    ((strconv_Atoi intSize (qs.Get "qid")).2 = some NumError.ErrRange →
      printqItemHandler d intSize s r =
          printqItemRespond (datastoreGet s (2 ^ (intSize - 1) - 1)) ∨
        printqItemHandler d intSize s r =
          printqItemRespond (datastoreGet s (-(2 ^ (intSize - 1))))) := by
  rw [printqItemHandler_eq d intSize s r qs hm hq hne]
  refine ⟨?_, ?_, ?_⟩
  · rcases printqItemRespond_status
      (datastoreGet s (wrapInt 64 (strconv_Atoi intSize (qs.Get "qid")).1)) with h | h <;>
      rw [h] <;> decide
  · intro herr
    rw [strconv_Atoi_ErrSyntax_zero intSize hb _ herr]
    rfl
  · intro herr
    rcases strconv_Atoi_range intSize hb _ herr with h | h
    · left
      rw [h]
      rcases hb with rfl | rfl <;> rfl
    · right
      rw [h]
      rcases hb with rfl | rfl <;> rfl

theorem C8_unparsable_qid_witness :
    (((64 : Nat) = 32 ∨ (64 : Nat) = 64) ∧
      strings_ToUpper fetchWordRequest.Method = "GET" ∧
      mockDeps.parseQueryString fetchWordRequest = .ok [("qid", "abc")] ∧
      Values.Get [("qid", "abc")] "qid" ≠ "") ∧
    ((printqItemHandler mockDeps 64 helloStore fetchWordRequest).status ≠ 400 ∧
    ((strconv_Atoi 64 (Values.Get [("qid", "abc")] "qid")).2 = some NumError.ErrSyntax →
      printqItemHandler mockDeps 64 helloStore fetchWordRequest =
        printqItemRespond (datastoreGet helloStore 0)) ∧
    ((strconv_Atoi 64 (Values.Get [("qid", "abc")] "qid")).2 = some NumError.ErrRange →
      printqItemHandler mockDeps 64 helloStore fetchWordRequest =
          printqItemRespond (datastoreGet helloStore (2 ^ (64 - 1) - 1)) ∨
        printqItemHandler mockDeps 64 helloStore fetchWordRequest =
          printqItemRespond (datastoreGet helloStore (-(2 ^ (64 - 1)))))) :=
  ⟨⟨by decide, by decide, rfl, by decide⟩,
    C8_unparsable_qid mockDeps 64 helloStore fetchWordRequest [("qid", "abc")]
      (by decide) (by decide) rfl (by decide)⟩

/-- C10: the response of `printqItemHandler` does not depend on the `key` and
`format` query parameters. For every store and every two GET requests whose
query values are the same apart from the entries of `key` and `format`, and
whose `qid` is not empty, the two responses are equal; and when the record
addressed by the qid exists, it is returned with status 200 whatever the
request's `key` is, so also to a caller whose key is not the record's `Key`. -/
theorem C10_item_ignores_key_and_format (d : Deps) (intSize : Nat) (s : Store)
    (r1 r2 : Request) (qs1 qs2 : Values)
    (hm1 : strings_ToUpper r1.Method = "GET") (hm2 : strings_ToUpper r2.Method = "GET")
    (hq1 : d.parseQueryString r1 = .ok qs1) (hq2 : d.parseQueryString r2 = .ok qs2)
    (hsame : qs1.filter (fun p => p.1 != "key" && p.1 != "format") =
      qs2.filter (fun p => p.1 != "key" && p.1 != "format"))
    (hne : qs1.Get "qid" ≠ "") :
    printqItemHandler d intSize s r1 = printqItemHandler d intSize s r2 ∧
    ∀ item, datastoreGet s (wrapInt 64 (strconv_Atoi intSize (qs1.Get "qid")).1) = .ok item →
      (printqItemHandler d intSize s r2).status = 200 ∧
      (printqItemHandler d intSize s r2).body =
        json_Marshal_StringMap [("origin", item.Origin), ("result", item.ResultText)] := by
  have hP : ∀ p : String × String, p.1 = "qid" →
      (fun p : String × String => p.1 != "key" && p.1 != "format") p = true := by
    intro p hp
    simp only [hp]
    decide
  have hqid : qs1.Get "qid" = qs2.Get "qid" := by
    rw [← Values_Get_filter qs1 "qid" _ hP, ← Values_Get_filter qs2 "qid" _ hP, hsame]
  have hne2 : qs2.Get "qid" ≠ "" := by rw [← hqid]; exact hne
  rw [printqItemHandler_eq d intSize s r1 qs1 hm1 hq1 hne,
    printqItemHandler_eq d intSize s r2 qs2 hm2 hq2 hne2, hqid]
  refine ⟨rfl, ?_⟩
  intro item hitem
  rw [hitem]
  exact ⟨rfl, rfl⟩

theorem C10_item_ignores_key_and_format_witness :
    (strings_ToUpper fetchOneRequest.Method = "GET" ∧
      strings_ToUpper fetchOneOtherKeyRequest.Method = "GET" ∧
      mockDeps.parseQueryString fetchOneRequest = .ok fetchOneRequest.Form ∧
      mockDeps.parseQueryString fetchOneOtherKeyRequest = .ok fetchOneOtherKeyRequest.Form ∧
      fetchOneRequest.Form.filter (fun p => p.1 != "key" && p.1 != "format") =
        fetchOneOtherKeyRequest.Form.filter (fun p => p.1 != "key" && p.1 != "format") ∧
      Values.Get fetchOneRequest.Form "qid" ≠ "") ∧
    (printqItemHandler mockDeps 64 helloStore fetchOneRequest =
        printqItemHandler mockDeps 64 helloStore fetchOneOtherKeyRequest ∧
    ∀ item, datastoreGet helloStore
        (wrapInt 64 (strconv_Atoi 64 (Values.Get fetchOneRequest.Form "qid")).1) = .ok item →
      (printqItemHandler mockDeps 64 helloStore fetchOneOtherKeyRequest).status = 200 ∧
      (printqItemHandler mockDeps 64 helloStore fetchOneOtherKeyRequest).body =
        json_Marshal_StringMap [("origin", item.Origin), ("result", item.ResultText)]) :=
  ⟨⟨by decide, by decide, rfl, rfl, by decide, by decide⟩,
    C10_item_ignores_key_and_format mockDeps 64 helloStore fetchOneRequest
      fetchOneOtherKeyRequest fetchOneRequest.Form fetchOneOtherKeyRequest.Form
      (by decide) (by decide) rfl rfl (by decide) (by decide)⟩

/-! ## Facts about `printqListHandler` -/

theorem printqListLoop_ok (l : List (Int × PrintQ)) : ∀ acc : List QList,
    printqListLoop (l.map Except.ok) acc = .ok (acc ++ l.map QList.ofEntity) := by
  induction l with
  | nil => intro acc; simp [printqListLoop]
  | cons e t ih =>
    intro acc
    obtain ⟨qid, x⟩ := e
    simp only [List.map_cons, printqListLoop, ih, QList.ofEntity, List.append_assoc,
      List.singleton_append]

theorem printqListHandler_eq (d : Deps) (s : Store) (r : Request) (qs : Values)
    (hm : strings_ToUpper r.Method = "GET") (hq : d.parseQueryString r = .ok qs) :
    printqListHandler d s r =
      ⟨200, some "application/json; charset=utf-8",
        json_Marshal_QList
          (((List.insertionSort entityLE
            (s.filter (fun e =>
              e.2.Key == (if qs.Get "key" = "" then EXAMPLE_AUTHKEY else qs.Get "key") &&
              ((if qs.Get "type" = "" then "label" else qs.Get "type") == "all" ||
                e.2.Type_ == (if qs.Get "type" = "" then "label" else qs.Get "type"))))).take
            100).map QList.ofEntity)⟩ := by
  unfold printqListHandler
  simp only [hm, ne_eq, not_true_eq_false, if_false, hq]
  by_cases hall : (if qs.Get "type" = "" then "label" else qs.Get "type") = "all"
  · simp only [hall, not_true_eq_false, if_false, Query.Run, Query.Limit, Query.OrderCTime,
      Query.Filter, datastore_NewQuery, List.nil_append, List.all_cons, List.all_nil,
      Filter.holds, Bool.and_true, if_true, MAX_QUERY, printqListLoop_ok, List.nil_append,
      beq_self_eq_true, Bool.true_or]
  · have hb : ((if qs.Get "type" = "" then "label" else qs.Get "type") == "all") = false := by
      simpa using hall
    simp only [hall, not_false_eq_true, if_true, Query.Run, Query.Limit, Query.OrderCTime,
      Query.Filter, datastore_NewQuery, List.nil_append, List.all_cons, List.all_nil,
      Filter.holds, Bool.and_true, MAX_QUERY, printqListLoop_ok, List.nil_append,
      List.cons_append, hb, Bool.false_or]

theorem printqAddHandler_store (d : Deps) (now : Int) (po : Except String Int)
    (s : Store) (r : Request) :
    (printqAddHandler d now po s r).2 = s ∨
      ∃ id rec, (printqAddHandler d now po s r).2 = s ++ [(id, rec)] ∧
        rec.Key = EXAMPLE_AUTHKEY ∧ (rec.Type_ = "label" ∨ rec.Type_ = "paper") := by
  by_cases hm : strings_ToUpper r.Method = "POST"
  · by_cases hr : (strings_Contains r.Referer "http://localhost" ||
        strings_Contains r.Referer "http://braille-printer.appspot.com") = true
    · cases po with
      | error msg =>
        left
        simp only [printqAddHandler, hm, ne_eq, not_true_eq_false, if_false, hr, if_true,
          datastorePut]
      | ok id =>
        right
        obtain ⟨rec, heq, hty, hkey, -⟩ := printqAddHandler_accept d now id s r hm hr
        refine ⟨id, rec, by rw [heq], hkey, ?_⟩
        rw [hty]
        split_ifs
        · right; rfl
        · left; rfl
    · left
      simp only [printqAddHandler, hm, ne_eq, not_true_eq_false, if_false, hr]
      rfl
  · left
    simp only [printqAddHandler, hm, ne_eq, not_false_eq_true, if_true]

theorem Reachable_records (d : Deps) (s : Store) (h : Reachable d s) :
    ∀ e ∈ s, e.2.Key = EXAMPLE_AUTHKEY ∧ (e.2.Type_ = "label" ∨ e.2.Type_ = "paper") := by
  induction h with
  | empty => intro e he; simp at he
  | @add s0 now po r _ ih =>
    rcases printqAddHandler_store d now po s0 r with h | ⟨id, rec, h, hk, ht⟩
    · rw [h]; exact ih
    · rw [h]
      intro e he
      rcases List.mem_append.mp he with h1 | h1
      · exact ih e h1
      · simp only [List.mem_singleton] at h1
        subst h1
        exact ⟨hk, ht⟩

theorem entityLE_CTime (a b : Int × PrintQ) (h : entityLE a b) : a.2.CTime ≤ b.2.CTime := by
  unfold entityLE at h
  omega

/-! ## Properties of `printqListHandler` -/

/-- C6: for every store reachable by submissions through `printqAddHandler`,
every key `k` and every type `t` (the values the handler uses: the request's
`key` and `type`, or the defaults "examplekey" and "label" when they are
empty), a GET to `printqListHandler` with a well-formed query succeeds with
status 200 and returns exactly the projection `(qid, type)` of the records
whose `Key` is `k` and whose `Type` is `t`, for `t = "all"` of the records of
that key of type "label" or "paper", ordered by `CTime` ascending and
truncated to the first 100. -/
theorem C6_listing (d : Deps) (s : Store) (r : Request) (qs : Values) (k t : String)
    (hreach : Reachable d s)
    (hm : strings_ToUpper r.Method = "GET") (hq : d.parseQueryString r = .ok qs)
    (hk : k = if qs.Get "key" = "" then EXAMPLE_AUTHKEY else qs.Get "key")
    (ht : t = if qs.Get "type" = "" then "label" else qs.Get "type") :
    ∃ L : List (Int × PrintQ),
      L.Perm (s.filter (listingSpec k t)) ∧
      L.Pairwise (fun a b => a.2.CTime ≤ b.2.CTime) ∧
      printqListHandler d s r =
        ⟨200, some "application/json; charset=utf-8",
          json_Marshal_QList ((L.take 100).map QList.ofEntity)⟩ := by
  refine ⟨List.insertionSort entityLE (s.filter (fun e => e.2.Key == k && (t == "all" ||
    e.2.Type_ == t))), ?_, ?_, ?_⟩
  · refine (List.perm_insertionSort entityLE _).trans ?_
    have hcongr : s.filter (fun e => e.2.Key == k && (t == "all" || e.2.Type_ == t)) =
        s.filter (listingSpec k t) := by
      apply List.filter_congr
      intro e he
      obtain ⟨-, hty⟩ := Reachable_records d s hreach e he
      unfold listingSpec
      by_cases hall : t = "all"
      · have hb : (e.2.Type_ == "label" || e.2.Type_ == "paper") = true := by
          rcases hty with h | h <;> simp [h]
        simp only [hall, beq_self_eq_true, Bool.true_or, if_true, hb]
      · have hb : (t == "all") = false := by simpa using hall
        simp only [hall, hb, Bool.false_or, if_false]
    rw [hcongr]
  · exact (List.sorted_insertionSort entityLE _).imp (fun {a b} h => entityLE_CTime a b h)
  · rw [printqListHandler_eq d s r qs hm hq, ← hk, ← ht]

theorem C6_listing_witness :
    (Reachable mockDeps helloStore ∧
      strings_ToUpper listLabelRequest.Method = "GET" ∧
      mockDeps.parseQueryString listLabelRequest = .ok [("type", "label")] ∧
      "examplekey" = (if Values.Get [("type", "label")] "key" = "" then EXAMPLE_AUTHKEY
        else Values.Get [("type", "label")] "key") ∧
      "label" = (if Values.Get [("type", "label")] "type" = "" then "label"
        else Values.Get [("type", "label")] "type")) ∧
    ∃ L : List (Int × PrintQ),
      L.Perm (helloStore.filter (listingSpec "examplekey" "label")) ∧
      L.Pairwise (fun a b => a.2.CTime ≤ b.2.CTime) ∧
      printqListHandler mockDeps helloStore listLabelRequest =
        ⟨200, some "application/json; charset=utf-8",
          json_Marshal_QList ((L.take 100).map QList.ofEntity)⟩ :=
  ⟨⟨Reachable.add 7 (.ok 1) helloRequest Reachable.empty, by decide, rfl, by decide, by decide⟩,
    C6_listing mockDeps helloStore listLabelRequest [("type", "label")] "examplekey" "label"
      (Reachable.add 7 (.ok 1) helloRequest Reachable.empty) (by decide) rfl
      (by decide) (by decide)⟩

/-- C7, amended: add-then-list. For every prior store that holds fewer than
100 records of key "examplekey" and type "label", after `printqAddHandler`
accepts a submission without a newline, creating one record of type "label"
with the store-assigned identifier `id`, a GET to `printqListHandler` with
`type=label` and the default key returns a list with an entry whose `qid` is
`id`. -/
theorem C7_add_then_list (d : Deps) (now : Int) (s : Store) (r : Request) (id : Int)
    (r' : Request) (qs : Values)
    (hst : (printqAddHandler d now (.ok id) s r).1.status = 200)
    (hline : '\n' ∉ (r.FormValue "input").data)
    (hroom : (s.filter (fun e => e.2.Key == EXAMPLE_AUTHKEY && e.2.Type_ == "label")).length
      < 100)
    (hm : strings_ToUpper r'.Method = "GET") (hq : d.parseQueryString r' = .ok qs)
    (htype : qs.Get "type" = "label")
    (hkey : qs.Get "key" = "" ∨ qs.Get "key" = EXAMPLE_AUTHKEY) :
    ∃ (rec : PrintQ) (L : List QList),
      (printqAddHandler d now (.ok id) s r).2 = s ++ [(id, rec)] ∧ rec.Type_ = "label" ∧
      printqListHandler d (printqAddHandler d now (.ok id) s r).2 r' =
        ⟨200, some "application/json; charset=utf-8", json_Marshal_QList L⟩ ∧
      (⟨id, "label"⟩ : QList) ∈ L := by
  obtain ⟨hpost, href, -⟩ := printqAddHandler_status_ok d now _ s r hst
  obtain ⟨rec, heq, hty, hrk, -⟩ := printqAddHandler_accept d now id s r hpost href
  have hlabel : rec.Type_ = "label" := by
    rw [hty, if_neg (fun hh => hline ((strings_Contains_newline _).mp hh))]
  have hkeff : (if qs.Get "key" = "" then EXAMPLE_AUTHKEY else qs.Get "key") =
      EXAMPLE_AUTHKEY := by
    rcases hkey with h | h
    · rw [if_pos h]
    · rw [h]; exact ite_self _
  have hteff : (if qs.Get "type" = "" then "label" else qs.Get "type") = "label" := by
    rw [htype]; exact ite_self _
  refine ⟨rec, ((List.insertionSort entityLE ((s ++ [(id, rec)]).filter (fun e =>
    e.2.Key == EXAMPLE_AUTHKEY && (("label" : String) == "all" || e.2.Type_ == "label")))).take
    100).map QList.ofEntity, by rw [heq], hlabel, ?_, ?_⟩
  · rw [printqListHandler_eq d _ r' qs hm hq, hkeff, hteff, heq]
  · simp only [show (("label" : String) == "all") = false by decide, Bool.false_or]
    have hpe : (rec.Key == EXAMPLE_AUTHKEY && rec.Type_ == "label") = true := by
      rw [hrk, hlabel]; decide
    have hfil : List.filter (fun e : Int × PrintQ =>
          e.2.Key == EXAMPLE_AUTHKEY && e.2.Type_ == "label") (s ++ [(id, rec)]) =
        List.filter (fun e : Int × PrintQ =>
          e.2.Key == EXAMPLE_AUTHKEY && e.2.Type_ == "label") s ++ [(id, rec)] := by
      rw [List.filter_append, List.filter_cons, if_pos hpe, List.filter_nil]
    rw [hfil]
    have hlen : (List.insertionSort entityLE (List.filter (fun e : Int × PrintQ =>
          e.2.Key == EXAMPLE_AUTHKEY && e.2.Type_ == "label") s ++ [(id, rec)])).length
        ≤ 100 := by
      rw [List.length_insertionSort, List.length_append, List.length_singleton]
      omega
    rw [List.take_of_length_le hlen]
    refine List.mem_map.mpr ⟨(id, rec), ?_, ?_⟩
    · rw [List.mem_insertionSort]
      exact List.mem_append_right _ (List.mem_singleton_self _)
    · simp only [QList.ofEntity, hlabel]

theorem C7_add_then_list_witness :
    ((printqAddHandler mockDeps 7 (.ok 1) [] helloRequest).1.status = 200 ∧
      '\n' ∉ (helloRequest.FormValue "input").data ∧
      (([] : Store).filter
        (fun e => e.2.Key == EXAMPLE_AUTHKEY && e.2.Type_ == "label")).length < 100 ∧
      strings_ToUpper listLabelRequest.Method = "GET" ∧
      mockDeps.parseQueryString listLabelRequest = .ok [("type", "label")] ∧
      Values.Get [("type", "label")] "type" = "label" ∧
      (Values.Get [("type", "label")] "key" = "" ∨
        Values.Get [("type", "label")] "key" = EXAMPLE_AUTHKEY)) ∧
    ∃ (rec : PrintQ) (L : List QList),
      (printqAddHandler mockDeps 7 (.ok 1) [] helloRequest).2 = [] ++ [(1, rec)] ∧
      rec.Type_ = "label" ∧
      printqListHandler mockDeps (printqAddHandler mockDeps 7 (.ok 1) [] helloRequest).2
          listLabelRequest =
        ⟨200, some "application/json; charset=utf-8", json_Marshal_QList L⟩ ∧
      (⟨1, "label"⟩ : QList) ∈ L :=
  ⟨⟨by decide, by decide, by decide, by decide, rfl, by decide, Or.inl (by decide)⟩,
    C7_add_then_list mockDeps 7 [] helloRequest 1 listLabelRequest [("type", "label")]
      (by decide) (by decide) (by decide) (by decide) rfl (by decide) (Or.inl (by decide))⟩

set_option maxRecDepth 100000 in
/-- C7, the claim as stated fails: after 100 submissions of "hello" (ids 1 to
100, at times 1 to 100), a further accepted submission of "hello" gets the
id 101, and the listing for `type=label` is the list of the ids 1 to 100: no
entry has the qid 101. -/
theorem C7_counterexample_full_list :
    (printqAddHandler mockDeps 101 (.ok 101) (submitHello 100) helloRequest).1.status = 200 ∧
    '\n' ∉ (helloRequest.FormValue "input").data ∧
    printqListHandler mockDeps
        (printqAddHandler mockDeps 101 (.ok 101) (submitHello 100) helloRequest).2
        listLabelRequest =
      ⟨200, some "application/json; charset=utf-8",
        json_Marshal_QList ((List.range 100).map (fun i => ⟨(i : Int) + 1, "label"⟩))⟩ ∧
    ∀ x ∈ (List.range 100).map (fun i => (⟨(i : Int) + 1, "label"⟩ : QList)), x.Qid ≠ 101 := by
  refine ⟨by decide, by decide, ?_, by decide⟩
  rw [printqListHandler_eq mockDeps _ listLabelRequest [("type", "label")] (by decide) rfl]
  congr 2

end BraillePrinter
